import Mathlib

/-!
Verification development for the CG_Labs repository: shallow embeddings of the
computational-geometry routines (color-model conversion, rasterization,
clipping, and the 3D letter rendering pipeline), together with theorems
settling the specification claims.

Python floating-point arithmetic is modelled over exact fields: ℚ for the
purely rational routines (Lab 1 color conversions, Lab 4 clipping, the mesh
builder), ℝ where square roots and trigonometry occur (Lab 5 pipeline).
Machine integers are modelled as ℤ (Lab 3 raster algorithms).
-/

namespace Lab1

/-- Source `clamp(value, min_value, max_value) = max(min_value, min(max_value, value))`. -/
def clamp (value minValue maxValue : ℚ) : ℚ :=
  max minValue (min maxValue value)

/-- Python built-in `round`: round half to even (banker's rounding). -/
def pyRound (q : ℚ) : ℤ :=
  let f := ⌊q⌋
  let frac := q - f
  if frac < 1/2 then f
  else if 1/2 < frac then f + 1
  else if f % 2 = 0 then f else f + 1

/-- Source `rgb_to_cmyk(r, g, b)`: returns the dict `{c, m, y, k}` modelled as a
4-tuple in that key order. -/
def rgb_to_cmyk (r g b : ℚ) : ℚ × ℚ × ℚ × ℚ :=
  let r1 := r / 255
  let g1 := g / 255
  let b1 := b / 255
  let k := 1 - max (max r1 g1) b1
  if k = 1 then (0, 0, 0, 100)
  else
    let c := ((1 - r1 - k) / (1 - k)) * 100
    let m := ((1 - g1 - k) / (1 - k)) * 100
    let y := ((1 - b1 - k) / (1 - k)) * 100
    (c, m, y, k * 100)

/-- Source `cmyk_to_rgb(c, m, y, k)`: returns the dict `{r, g, b}` modelled as a
triple of integers (Python `round` produces an `int`). -/
def cmyk_to_rgb (c m y k : ℚ) : ℤ × ℤ × ℤ :=
  let c1 := clamp c 0 100 / 100
  let m1 := clamp m 0 100 / 100
  let y1 := clamp y 0 100 / 100
  let k1 := clamp k 0 100 / 100
  (pyRound (255 * (1 - c1) * (1 - k1)),
   pyRound (255 * (1 - m1) * (1 - k1)),
   pyRound (255 * (1 - y1) * (1 - k1)))

end Lab1

namespace Lab3

/-- Loop body of `bresenham_line`. The source loop has no structural bound, so
the embedding takes explicit fuel and returns `none` on fuel exhaustion; the
theorems prove the fuel supplied by `bresenham_line` always suffices.
Each iteration appends the current pixel, stops when the end point is reached,
and otherwise advances `x` and/or `y` exactly as the source does. -/
def bresLoop (x1 y1 sx sy dx dy : ℤ) : ℕ → ℤ → ℤ → ℤ → Option (List (ℤ × ℤ))
  | 0, _, _, _ => none
  | fuel+1, x, y, err =>
    if x = x1 ∧ y = y1 then some [(x, y)]
    else
      let e2 := 2 * err
      let errx := if e2 > -dy then err - dy else err
      let x3 := if e2 > -dy then x + sx else x
      let erry := if e2 < dx then errx + dx else errx
      let y3 := if e2 < dx then y + sy else y
      match bresLoop x1 y1 sx sy dx dy fuel x3 y3 erry with
      | none => none
      | some l => some ((x, y) :: l)

/-- Source `bresenham_line(p0, p1)`: classic integer error-accumulator walk. -/
def bresenham_line (p0 p1 : ℤ × ℤ) : Option (List (ℤ × ℤ)) :=
  let dx := |p1.1 - p0.1|
  let dy := |p1.2 - p0.2|
  let sx : ℤ := if p0.1 < p1.1 then 1 else -1
  let sy : ℤ := if p0.2 < p1.2 then 1 else -1
  bresLoop p1.1 p1.2 sx sy dx dy (dx + dy + 1).toNat p0.1 p0.2 (dx - dy)

end Lab3

namespace Lab4

/-- Loop of `liang_barsky` over the four `(p, q)` pairs, threading `u1, u2` and
returning `none` on the source's early `return None` paths. -/
def lbLoop : List (ℚ × ℚ) → ℚ → ℚ → Option (ℚ × ℚ)
  | [], u1, u2 => some (u1, u2)
  | (p, q) :: rest, u1, u2 =>
    if p = 0 then
      if q < 0 then none else lbLoop rest u1 u2
    else
      let t := -q / p
      if p < 0 then
        if max u1 t > u2 then none else lbLoop rest (max u1 t) u2
      else
        if u1 > min u2 t then none else lbLoop rest u1 (min u2 t)

/-- Source `liang_barsky(rect, seg)` with `rect = (xmin, ymin, xmax, ymax)` and
`seg = (x0, y0, x1, y1)`; returns the clipped segment or `none`. -/
def liang_barsky (rect seg : ℚ × ℚ × ℚ × ℚ) : Option (ℚ × ℚ × ℚ × ℚ) :=
  let (xmin, ymin, xmax, ymax) := rect
  let (x0, y0, x1, y1) := seg
  let dx := x1 - x0
  let dy := y1 - y0
  match lbLoop [(-dx, x0 - xmin), (dx, xmax - x0), (-dy, y0 - ymin), (dy, ymax - y0)] 0 1 with
  | none => none
  | some (u1, u2) => some (x0 + u1 * dx, y0 + u1 * dy, x0 + u2 * dx, y0 + u2 * dy)

/-- The four clip boundaries of `sutherland_hodgman`, in the source's string
encoding "left" / "right" / "bottom" / "top". -/
inductive Edge
  | left
  | right
  | bottom
  | top
deriving DecidableEq

/-- Source inner function `inside(p, edge)`. -/
def inside (xmin ymin xmax ymax : ℚ) (p : ℚ × ℚ) : Edge → Bool
  | .left => xmin ≤ p.1
  | .right => p.1 ≤ xmax
  | .bottom => ymin ≤ p.2
  | .top => p.2 ≤ ymax

/-- Source inner function `intersect(p1, p2, edge)`. -/
def intersect (xmin ymin xmax ymax : ℚ) (p1 p2 : ℚ × ℚ) (e : Edge) : ℚ × ℚ :=
  if p1 = p2 then p1
  else if e = .left ∨ e = .right then
    let xe := if e = .left then xmin else xmax
    let t := (xe - p1.1) / (p2.1 - p1.1)
    (xe, p1.2 + t * (p2.2 - p1.2))
  else
    let ye := if e = .bottom then ymin else ymax
    let t := (ye - p1.2) / (p2.2 - p1.2)
    (p1.1 + t * (p2.1 - p1.1), ye)

/-- Source inner function `clip(poly, edge)`: one Sutherland–Hodgman pass.
`poly[i - 1]` at `i = 0` is Python's negative indexing, i.e. the last vertex. -/
def clipEdge (xmin ymin xmax ymax : ℚ) (poly : List (ℚ × ℚ)) (e : Edge) : List (ℚ × ℚ) :=
  if poly = [] then []
  else
    let n := poly.length
    (List.range n).foldl (fun out i =>
      let cur := poly.getD i (0, 0)
      let prev := poly.getD ((i + n - 1) % n) (0, 0)
      let curIn := inside xmin ymin xmax ymax cur e
      let prevIn := inside xmin ymin xmax ymax prev e
      if curIn then
        if prevIn then out ++ [cur]
        else out ++ [intersect xmin ymin xmax ymax prev cur e, cur]
      else if prevIn then out ++ [intersect xmin ymin xmax ymax prev cur e]
      else out) []

/-- Source `sutherland_hodgman(subject, clip_rect)`: successive clipping against
the four edges in the order left, right, bottom, top. -/
def sutherland_hodgman (subject : List (ℚ × ℚ)) (rect : ℚ × ℚ × ℚ × ℚ) : List (ℚ × ℚ) :=
  let (xmin, ymin, xmax, ymax) := rect
  [Edge.left, Edge.right, Edge.bottom, Edge.top].foldl (clipEdge xmin ymin xmax ymax) subject

end Lab4

namespace Lab5

/-- The outer contour of the letter Р from `build_letter_r` (exact rationals:
`5.2 = 26/5`, `5.6 = 28/5`, `7.2 = 36/5`, `2.4 = 12/5`, `3.4 = 17/5`). -/
def contour : List (ℚ × ℚ) :=
  [(0, 0), (0, 8), (26/5, 8), (28/5, 36/5), (28/5, 26/5), (12/5, 26/5), (28/5, 3), (17/5, 0)]

/-- The rectangular cutout of `build_letter_r` (`1.2 = 6/5`, `6.9 = 69/10`,
`5.6 = 28/5`, `3.6 = 18/5`). -/
def inner : List (ℚ × ℚ) :=
  [(6/5, 69/10), (6/5, 28/5), (18/5, 28/5), (18/5, 69/10)]

/-- Source `build_letter_r(depth)`: vertices (front outer, front inner, back
outer, back inner) and faces (outer side quads, inner side quads, then the four
capping faces). Faces are index lists since the caps are n-gons. -/
def build_letter_r (depth : ℚ) : List (ℚ × ℚ × ℚ) × List (List ℕ) :=
  let verts :=
    contour.map (fun p => (p.1, p.2, (0 : ℚ))) ++ inner.map (fun p => (p.1, p.2, (0 : ℚ)))
      ++ contour.map (fun p => (p.1, p.2, depth)) ++ inner.map (fun p => (p.1, p.2, depth))
  let nContour := contour.length
  let nInner := inner.length
  let sideOuter := (List.range nContour).map (fun i =>
    [i, (i + 1) % nContour, (i + 1) % nContour + nContour, i + nContour])
  let sideInner := (List.range nInner).map (fun i =>
    [nContour + nInner + nContour + (i + 1) % nInner,
     nContour + nInner + nContour + i,
     nContour + i,
     nContour + (i + 1) % nInner])
  let backStart := nContour + nInner
  let backInnerStart := backStart + nContour
  let frontOuter := (List.range nContour).map (fun i => i)
  let frontInner := (List.range nInner).map (fun i => nContour + i)
  let backOuter := (List.range nContour).map (fun i => backStart + i)
  let backInner := (List.range nInner).map (fun i => backInnerStart + i)
  (verts, sideOuter ++ sideInner ++ [frontOuter, frontInner, backOuter, backInner])

/-- Python `min` over a nonempty list (the source never applies it to `[]`;
the `[]` case is an arbitrary default). -/
def listMin : List ℚ → ℚ
  | [] => 0
  | x :: xs => xs.foldl min x

/-- Python `max` over a nonempty list (the source never applies it to `[]`). -/
def listMax : List ℚ → ℚ
  | [] => 0
  | x :: xs => xs.foldl max x

/-- Source `LetterApp._center_model`: subtract the bounding-box center from
every vertex. -/
def center_model (vs : List (ℚ × ℚ × ℚ)) : List (ℚ × ℚ × ℚ) :=
  let cx := (listMin (vs.map (·.1)) + listMax (vs.map (·.1))) / 2
  let cy := (listMin (vs.map (·.2.1)) + listMax (vs.map (·.2.1))) / 2
  let cz := (listMin (vs.map (·.2.2)) + listMax (vs.map (·.2.2))) / 2
  vs.map (fun v => (v.1 - cx, v.2.1 - cy, v.2.2 - cz))

noncomputable section

/-- A 3D vector, the source's `Vec3` float triple modelled over ℝ. -/
abbrev Vec3 := ℝ × ℝ × ℝ

/-- Source `rotate(v, rx, ry, rz)`: sequential X, then Y, then Z axis rotation,
each reassignment consuming the previous one's output. -/
def rotate (v : Vec3) (rx ry rz : ℝ) : Vec3 :=
  let cx := Real.cos rx
  let sx := Real.sin rx
  let cy := Real.cos ry
  let sy := Real.sin ry
  let cz := Real.cos rz
  let sz := Real.sin rz
  let y1 := v.2.1 * cx - v.2.2 * sx
  let z1 := v.2.1 * sx + v.2.2 * cx
  let x1 := v.1 * cy + z1 * sy
  let z2 := -v.1 * sy + z1 * cy
  let x2 := x1 * cz - y1 * sz
  let y2 := x1 * sz + y1 * cz
  (x2, y2, z2)

/-- Source `add(v, t)`. -/
def add (v t : Vec3) : Vec3 :=
  (v.1 + t.1, v.2.1 + t.2.1, v.2.2 + t.2.2)

/-- Source `scale(v, s)`. -/
def scale (v : Vec3) (s : ℝ) : Vec3 :=
  (v.1 * s, v.2.1 * s, v.2.2 * s)

/-- Python `x or y` on floats: `x` is falsy exactly when it equals `0.0`. -/
def pyOr (x y : ℝ) : ℝ :=
  if x = 0 then y else x

/-- Source `normal(a, b, c)`: cross product of the edge vectors `(b-a)` and
`(c-a)`, divided by `sqrt(...) or 1.0`. -/
def normal (a b c : Vec3) : Vec3 :=
  let ux := b.1 - a.1
  let uy := b.2.1 - a.2.1
  let uz := b.2.2 - a.2.2
  let vx := c.1 - a.1
  let vy := c.2.1 - a.2.1
  let vz := c.2.2 - a.2.2
  let nx := uy * vz - uz * vy
  let ny := uz * vx - ux * vz
  let nz := ux * vy - uy * vx
  let length := pyOr (Real.sqrt (nx * nx + ny * ny + nz * nz)) 1
  (nx / length, ny / length, nz / length)

/-- The cross product of the edge vectors `(b-a)` and `(c-a)`, exactly the
unnormalized vector computed inside `normal`. -/
def edgeCross (a b c : Vec3) : Vec3 :=
  ((b.2.1 - a.2.1) * (c.2.2 - a.2.2) - (b.2.2 - a.2.2) * (c.2.1 - a.2.1),
   (b.2.2 - a.2.2) * (c.1 - a.1) - (b.1 - a.1) * (c.2.2 - a.2.2),
   (b.1 - a.1) * (c.2.1 - a.2.1) - (b.2.1 - a.2.1) * (c.1 - a.1))

/-- Source `project(v, angle)`: orthographic projection with the camera rotated
around the vertical axis by `angle`. -/
def project (v : Vec3) (angle : ℝ) : Vec3 :=
  let ca := Real.cos angle
  let sa := Real.sin angle
  (v.1 * ca + v.2.2 * sa, v.2.1, -v.1 * sa + v.2.2 * ca)

/-- Python `int(x)` on a float: truncation toward zero. -/
def pyInt (x : ℝ) : ℤ :=
  if 0 ≤ x then ⌊x⌋ else ⌈x⌉

/-- Source `shade(color, n, light=(0.5, 0.7, 1.0))`: Lambertian intensity
clamped to `[0.2, 1.0]`, channels truncated and capped at 255. The source is
always called with the default light and formats the channels as a hex string;
the hex formatting (injective on in-range channels) is modelled by the channel
triple itself. -/
def shade (color : ℤ × ℤ × ℤ) (n : Vec3) : ℤ × ℤ × ℤ :=
  let dot := max (1/5) (min 1 (n.1 * (1/2) + n.2.1 * (7/10) + n.2.2 * 1))
  (min 255 (pyInt (color.1 * dot)),
   min 255 (pyInt (color.2.1 * dot)),
   min 255 (pyInt (color.2.2 * dot)))

/-- The source's `Transform` dataclass. -/
structure Transform where
  tx : ℝ
  ty : ℝ
  tz : ℝ
  rx : ℝ
  ry : ℝ
  rz : ℝ
  scale : ℝ

/-- Source `LetterApp.transform_vertices`: scale, rotate, translate by the
scale-multiplied offsets, then project by the camera angle — applied to every
base vertex. -/
def transform_vertices (baseVerts : List Vec3) (t : Transform) (camAngle : ℝ) : List Vec3 :=
  baseVerts.map fun v =>
    let v1 := scale v t.scale
    let v2 := rotate v1 t.rx t.ry t.rz
    let v3 := add v2 (t.tx * t.scale, t.ty * t.scale, t.tz * t.scale)
    project v3 camAngle

/-- The fixed base color `(228, 87, 46)` used by `LetterApp.render`. -/
def base_color : ℤ × ℤ × ℤ := (228, 87, 46)

/-- Single-axis X rotation (standard 2D rotation of the `(y, z)` pair), the
spec's description of the first stage of `rotate`. -/
def rotX (θ : ℝ) (v : Vec3) : Vec3 :=
  (v.1, v.2.1 * Real.cos θ - v.2.2 * Real.sin θ, v.2.1 * Real.sin θ + v.2.2 * Real.cos θ)

/-- Single-axis Y rotation (standard 2D rotation of the `(x, z)` pair), the
spec's description of the second stage of `rotate`. -/
def rotY (θ : ℝ) (v : Vec3) : Vec3 :=
  (v.1 * Real.cos θ + v.2.2 * Real.sin θ, v.2.1, -v.1 * Real.sin θ + v.2.2 * Real.cos θ)

/-- Single-axis Z rotation (standard 2D rotation of the `(x, y)` pair), the
spec's description of the third stage of `rotate`. -/
def rotZ (θ : ℝ) (v : Vec3) : Vec3 :=
  (v.1 * Real.cos θ - v.2.1 * Real.sin θ, v.1 * Real.sin θ + v.2.1 * Real.cos θ, v.2.2)

/-- The per-face fill computation of `LetterApp.render`: the shading normal is
taken from the first three vertices of the face as indexed into the *projected*
vertex list `verts` (out-of-range indices, which cannot occur for the mesh's
faces, are modelled by `getD` defaults where the source would raise). -/
def faceFill (verts : List Vec3) (face : List ℕ) : ℤ × ℤ × ℤ :=
  let n : Vec3 :=
    if 3 ≤ face.length then
      normal (verts.getD (face.getD 0 0) (0, 0, 0))
        (verts.getD (face.getD 1 0) (0, 0, 0))
        (verts.getD (face.getD 2 0) (0, 0, 0))
    else (0, 0, 1)
  shade base_color n

/-- The app's base vertices: `build_letter_r(depth=1.2)` re-centered, as in
`LetterApp.__init__`. -/
def letterVertsQ : List (ℚ × ℚ × ℚ) :=
  center_model (build_letter_r (6/5)).1

/-- The app's base vertices injected into ℝ for the rendering pipeline. -/
def letterVerts : List Vec3 :=
  letterVertsQ.map (fun v => ((v.1 : ℝ), (v.2.1 : ℝ), (v.2.2 : ℝ)))

/-- The app's face list (depth does not influence the faces). -/
def letterFaces : List (List ℕ) :=
  (build_letter_r (6/5)).2

/-- Fill color of one mesh face as rendered for a given transform and camera
angle, following `LetterApp.render`. -/
def renderFill (t : Transform) (camAngle : ℝ) (face : List ℕ) : ℤ × ℤ × ℤ :=
  faceFill (transform_vertices letterVerts t camAngle) face

/-- Mean projected depth of a face, the sort key of the visibility resolver
(`sum(zs) / len(zs)` over the third components of the projected vertices). -/
def meanDepth (verts : List Vec3) (face : List ℕ) : ℝ :=
  (face.map (fun i => (verts.getD i (0, 0, 0)).2.2)).sum / (face.length : ℝ)

/-- The `(mean depth, face)` pairs built by `LetterApp.render` before sorting. -/
def depthKeyed (verts : List Vec3) (faces : List (List ℕ)) : List (ℝ × List ℕ) :=
  faces.map (fun f => (meanDepth verts f, f))

/-- The visibility resolver: Python's `list.sort(key=lambda x: x[0],
reverse=True)` is a stable descending sort by key, modelled by the stable
`List.mergeSort` with the reversed comparison. -/
def sortFacesBack (verts : List Vec3) (faces : List (List ℕ)) : List (ℝ × List ℕ) :=
  (depthKeyed verts faces).mergeSort (fun a b => decide (b.1 ≤ a.1))

end

end Lab5

/-! ## Theorems -/

/-- C1: the code evaluated at the claim's inputs. The claim states that
`liang_barsky` clips `(0,0)-(10,10)` against `(2,2,8,8)` to `(2,2)-(8,8)`;
the code instead returns `none` there (it computes `t = -q/p` where the
Liang–Barsky parameter is `q/p`, so the parametric window collapses), while
the second, fully-outside input does return `none` as claimed. -/
theorem C1_liang_barsky_eval :
    Lab4.liang_barsky (2, 2, 8, 8) (0, 0, 10, 10) = none ∧
    Lab4.liang_barsky (0, 0, 10, 10) (-5, -5, -1, -1) = none := by
  constructor <;> norm_num [Lab4.liang_barsky, Lab4.lbLoop]

/-- C8: `sutherland_hodgman` clips against the four edges in the fixed order
left, right, bottom, top, each pass consuming the previous output; clipping the
square `[(0,0),(10,0),(10,10),(0,10)]` against `(2,2,8,8)` yields the square
`[(2,2),(8,2),(8,8),(2,8)]` rotated (starting point shifted by 3); and a
polygon whose vertices are all clipped away yields the empty list. -/
theorem C8_sutherland_hodgman :
    (∀ (subject : List (ℚ × ℚ)) (xmin ymin xmax ymax : ℚ),
      Lab4.sutherland_hodgman subject (xmin, ymin, xmax, ymax) =
        Lab4.clipEdge xmin ymin xmax ymax
          (Lab4.clipEdge xmin ymin xmax ymax
            (Lab4.clipEdge xmin ymin xmax ymax
              (Lab4.clipEdge xmin ymin xmax ymax subject Lab4.Edge.left)
              Lab4.Edge.right)
            Lab4.Edge.bottom)
          Lab4.Edge.top) ∧
    Lab4.sutherland_hodgman [(0, 0), (10, 0), (10, 10), (0, 10)] (2, 2, 8, 8) =
      ([((2 : ℚ), (2 : ℚ)), (8, 2), (8, 8), (2, 8)]).rotateLeft 3 ∧
    Lab4.sutherland_hodgman [(20, 20), (30, 20), (25, 30)] (2, 2, 8, 8) = [] := by
  have h1 : Lab4.clipEdge 2 2 8 8 [(0, 0), (10, 0), (10, 10), (0, 10)] .left
      = [(2, 0), (10, 0), (10, 10), (2, 10)] := by
    norm_num [Lab4.clipEdge, Lab4.inside, Lab4.intersect, List.range_succ, Prod.ext_iff]
    all_goals simp_all
  have h2 : Lab4.clipEdge 2 2 8 8 [(2, 0), (10, 0), (10, 10), (2, 10)] .right
      = [(2, 0), (8, 0), (8, 10), (2, 10)] := by
    norm_num [Lab4.clipEdge, Lab4.inside, Lab4.intersect, List.range_succ, Prod.ext_iff]
    all_goals simp_all
  have h3 : Lab4.clipEdge 2 2 8 8 [(2, 0), (8, 0), (8, 10), (2, 10)] .bottom
      = [(2, 2), (8, 2), (8, 10), (2, 10)] := by
    norm_num [Lab4.clipEdge, Lab4.inside, Lab4.intersect, List.range_succ, Prod.ext_iff]
    all_goals simp_all
  have h4 : Lab4.clipEdge 2 2 8 8 [(2, 2), (8, 2), (8, 10), (2, 10)] .top
      = [(2, 8), (2, 2), (8, 2), (8, 8)] := by
    norm_num [Lab4.clipEdge, Lab4.inside, Lab4.intersect, List.range_succ, Prod.ext_iff]
    all_goals simp_all
  have h5 : Lab4.clipEdge 2 2 8 8 [(20, 20), (30, 20), (25, 30)] .left
      = [(20, 20), (30, 20), (25, 30)] := by
    norm_num [Lab4.clipEdge, Lab4.inside, Lab4.intersect, List.range_succ, Prod.ext_iff]
  have h6 : Lab4.clipEdge 2 2 8 8 [(20, 20), (30, 20), (25, 30)] .right = [] := by
    norm_num [Lab4.clipEdge, Lab4.inside, Lab4.intersect, List.range_succ, Prod.ext_iff]
  have h7 : ∀ e, Lab4.clipEdge 2 2 8 8 [] e = [] := fun e => by
    norm_num [Lab4.clipEdge]
  refine ⟨fun subject xmin ymin xmax ymax => rfl, ?_, ?_⟩
  · show Lab4.clipEdge 2 2 8 8 (Lab4.clipEdge 2 2 8 8 (Lab4.clipEdge 2 2 8 8
      (Lab4.clipEdge 2 2 8 8 [(0, 0), (10, 0), (10, 10), (0, 10)] .left) .right) .bottom) .top = _
    rw [h1, h2, h3, h4]
    norm_num [List.rotateLeft]
  · show Lab4.clipEdge 2 2 8 8 (Lab4.clipEdge 2 2 8 8 (Lab4.clipEdge 2 2 8 8
      (Lab4.clipEdge 2 2 8 8 [(20, 20), (30, 20), (25, 30)] .left) .right) .bottom) .top = _
    rw [h5, h6, h7, h7]

/-- C5: for any extrusion depth, the mesh built by `build_letter_r` from the
8-point outer contour and 4-point inner contour has 24 vertices and exactly
16 faces — 8 outer side quads, then 4 inner side quads, then the 4 capping
faces — and every index in every face is below the vertex count 24. -/
theorem C5_mesh_invariants (d : ℚ) :
    (Lab5.build_letter_r d).1.length = 24 ∧
    (Lab5.build_letter_r d).2.length = 16 ∧
    (∀ f ∈ (Lab5.build_letter_r d).2.take 12, f.length = 4) ∧
    (∀ f ∈ (Lab5.build_letter_r d).2, ∀ i ∈ f, i < 24) := by
  have hf : (Lab5.build_letter_r d).2 =
      [[0, 1, 9, 8], [1, 2, 10, 9], [2, 3, 11, 10], [3, 4, 12, 11], [4, 5, 13, 12],
       [5, 6, 14, 13], [6, 7, 15, 14], [7, 0, 8, 15], [21, 20, 8, 9], [22, 21, 9, 10],
       [23, 22, 10, 11], [20, 23, 11, 8], [0, 1, 2, 3, 4, 5, 6, 7], [8, 9, 10, 11],
       [12, 13, 14, 15, 16, 17, 18, 19], [20, 21, 22, 23]] := rfl
  refine ⟨rfl, ?_, ?_, ?_⟩ <;> rw [hf] <;> decide

/-- C4: the pipeline computes each projected vertex as
`project(rotate(scale(v, s), rx, ry, rz) + (tx*s, ty*s, tz*s), camAngle)` —
the translation offsets are multiplied by the scale factor — and `rotate`
is the sequential composition X then Y then Z, each axis rotation consuming
the previous one's output. -/
theorem C4_transform_pipeline :
    (∀ (base : List Lab5.Vec3) (t : Lab5.Transform) (a : ℝ),
      Lab5.transform_vertices base t a = base.map (fun v =>
        Lab5.project
          (Lab5.add (Lab5.rotate (Lab5.scale v t.scale) t.rx t.ry t.rz)
            (t.tx * t.scale, t.ty * t.scale, t.tz * t.scale)) a)) ∧
    (∀ (v : Lab5.Vec3) (rx ry rz : ℝ),
      Lab5.rotate v rx ry rz = Lab5.rotZ rz (Lab5.rotY ry (Lab5.rotX rx v))) := by
  exact ⟨fun base t a => rfl, fun v rx ry rz => rfl⟩

/-- C9: `project` is a rigid rotation about the vertical axis: the second
component of `project v a` is exactly `v`'s second component, and the
Euclidean norm is preserved. -/
theorem C9_project_is_rigid (v : Lab5.Vec3) (a : ℝ) :
    (Lab5.project v a).2.1 = v.2.1 ∧
    Real.sqrt ((Lab5.project v a).1 ^ 2 + (Lab5.project v a).2.1 ^ 2 +
        (Lab5.project v a).2.2 ^ 2) =
      Real.sqrt (v.1 ^ 2 + v.2.1 ^ 2 + v.2.2 ^ 2) := by
  refine ⟨rfl, ?_⟩
  have h := Real.sin_sq_add_cos_sq a
  congr 1
  simp only [Lab5.project]
  linear_combination (v.1 ^ 2 + v.2.2 ^ 2) * h

/-- Helper for C7: the Bresenham loop, started anywhere with `rx` remaining
x-steps and `ry` remaining y-steps and the error accumulator in its invariant
shape, completes within any fuel exceeding `rx + ry`, emits the current pixel
first and ends exactly at `(x1, y1)`. -/
theorem bresLoop_spec (x1 y1 sx sy dx dy : ℤ)
    (hsx : sx = 1 ∨ sx = -1) (hsy : sy = 1 ∨ sy = -1)
    (hdx : 0 ≤ dx) (hdy : 0 ≤ dy) :
    ∀ (fuel : ℕ) (rx ry : ℤ), 0 ≤ rx → rx ≤ dx → 0 ≤ ry → ry ≤ dy →
      rx + ry < (fuel : ℤ) →
      ∃ l : List (ℤ × ℤ),
        Lab3.bresLoop x1 y1 sx sy dx dy fuel (x1 - sx * rx) (y1 - sy * ry)
          (dx * (1 + dy - ry) - dy * (1 + dx - rx)) = some l ∧
        l.head? = some (x1 - sx * rx, y1 - sy * ry) ∧
        l.getLast? = some (x1, y1) := by
  intro fuel
  induction fuel with
  | zero =>
    intro rx ry h1 h2 h3 h4 h5
    exfalso
    simp only [Nat.cast_zero] at h5
    omega
  | succ fuel ih =>
    intro rx ry h1 h2 h3 h4 h5
    by_cases hz : rx = 0 ∧ ry = 0
    · obtain ⟨hz1, hz2⟩ := hz
      subst hz1; subst hz2
      refine ⟨[(x1, y1)], ?_, ?_, ?_⟩
      · simp [Lab3.bresLoop]
      · simp
      · simp
    · have hguard : ¬(x1 - sx * rx = x1 ∧ y1 - sy * ry = y1) := by
        rcases hsx with h | h <;> rcases hsy with h2 | h2 <;> subst h <;> subst h2 <;> omega
      set err := dx * (1 + dy - ry) - dy * (1 + dx - rx) with herr
      have fact3 : (2 * err > -dy) ∨ (2 * err < dx) := by
        by_contra hcon
        push_neg at hcon
        obtain ⟨hc1, hc2⟩ := hcon
        omega
      have factx : 2 * err > -dy → 1 ≤ rx := by
        intro hx
        by_contra hrx
        have hrx0 : rx = 0 := by omega
        have hry1 : 1 ≤ ry := by omega
        subst hrx0
        nlinarith [mul_nonneg hdx (by omega : (0:ℤ) ≤ ry - 1)]
      have facty : 2 * err < dx → 1 ≤ ry := by
        intro hy
        by_contra hry
        have hry0 : ry = 0 := by omega
        have hrx1 : 1 ≤ rx := by omega
        subst hry0
        nlinarith [mul_nonneg hdy (by omega : (0:ℤ) ≤ rx - 1)]
      by_cases hx : 2 * err > -dy <;> by_cases hy : 2 * err < dx
      · have hrx1 := factx hx
        have hry1 := facty hy
        obtain ⟨l, hl, hhead, hlast⟩ := ih (rx - 1) (ry - 1)
          (by omega) (by omega) (by omega) (by omega) (by push_cast at h5; omega)
        refine ⟨(x1 - sx * rx, y1 - sy * ry) :: l, ?_, by simp, ?_⟩
        · simp only [Lab3.bresLoop, if_neg hguard, ← herr, if_pos hx, if_pos hy]
          have e1 : x1 - sx * rx + sx = x1 - sx * (rx - 1) := by ring
          have e2 : y1 - sy * ry + sy = y1 - sy * (ry - 1) := by ring
          have e3 : err - dy + dx = dx * (1 + dy - (ry - 1)) - dy * (1 + dx - (rx - 1)) := by
            rw [herr]; ring
          rw [e1, e2, e3, hl]
        · cases l with
          | nil => simp at hhead
          | cons b t => rw [List.getLast?_cons_cons]; exact hlast
      · have hrx1 := factx hx
        obtain ⟨l, hl, hhead, hlast⟩ := ih (rx - 1) ry
          (by omega) (by omega) (by omega) (by omega) (by push_cast at h5; omega)
        refine ⟨(x1 - sx * rx, y1 - sy * ry) :: l, ?_, by simp, ?_⟩
        · simp only [Lab3.bresLoop, if_neg hguard, ← herr, if_pos hx, if_neg hy]
          have e1 : x1 - sx * rx + sx = x1 - sx * (rx - 1) := by ring
          have e3 : err - dy = dx * (1 + dy - ry) - dy * (1 + dx - (rx - 1)) := by
            rw [herr]; ring
          rw [e1, e3, hl]
        · cases l with
          | nil => simp at hhead
          | cons b t => rw [List.getLast?_cons_cons]; exact hlast
      · have hry1 := facty hy
        obtain ⟨l, hl, hhead, hlast⟩ := ih rx (ry - 1)
          (by omega) (by omega) (by omega) (by omega) (by push_cast at h5; omega)
        refine ⟨(x1 - sx * rx, y1 - sy * ry) :: l, ?_, by simp, ?_⟩
        · simp only [Lab3.bresLoop, if_neg hguard, ← herr, if_neg hx, if_pos hy]
          have e2 : y1 - sy * ry + sy = y1 - sy * (ry - 1) := by ring
          have e3 : err + dx = dx * (1 + dy - (ry - 1)) - dy * (1 + dx - rx) := by
            rw [herr]; ring
          rw [e2, e3, hl]
        · cases l with
          | nil => simp at hhead
          | cons b t => rw [List.getLast?_cons_cons]; exact hlast
      · exact absurd fact3 (by simp [hx, hy])

/-- C7: for every pair of integer endpoints, `bresenham_line` terminates (the
fuel it supplies always suffices, yielding `some` result), its first emitted
point is the start point and its last emitted point is exactly the end point;
and from `(0,0)` to `(5,0)` it yields exactly the six points
`(0,0) … (5,0)`, with no duplicates and no gaps. -/
theorem C7_bresenham_endpoints :
    (∀ pa pb : ℤ × ℤ, ∃ l, Lab3.bresenham_line pa pb = some l ∧
        l.head? = some pa ∧ l.getLast? = some pb) ∧
    Lab3.bresenham_line (0, 0) (5, 0) =
      some [(0, 0), (1, 0), (2, 0), (3, 0), (4, 0), (5, 0)] := by
  constructor
  · intro pa pb
    have hsx : (if pa.1 < pb.1 then (1:ℤ) else -1) = 1 ∨
        (if pa.1 < pb.1 then (1:ℤ) else -1) = -1 := by
      split <;> simp
    have hsy : (if pa.2 < pb.2 then (1:ℤ) else -1) = 1 ∨
        (if pa.2 < pb.2 then (1:ℤ) else -1) = -1 := by
      split <;> simp
    obtain ⟨l, hl, hh, hlast⟩ := bresLoop_spec pb.1 pb.2
      (if pa.1 < pb.1 then (1:ℤ) else -1) (if pa.2 < pb.2 then (1:ℤ) else -1)
      (|pb.1 - pa.1|) (|pb.2 - pa.2|) hsx hsy (abs_nonneg _) (abs_nonneg _)
      ((|pb.1 - pa.1| + |pb.2 - pa.2| + 1).toNat) (|pb.1 - pa.1|) (|pb.2 - pa.2|)
      (abs_nonneg _) le_rfl (abs_nonneg _) le_rfl
      (by rw [Int.toNat_of_nonneg (by positivity)]; omega)
    have hx0 : pb.1 - (if pa.1 < pb.1 then (1:ℤ) else -1) * |pb.1 - pa.1| = pa.1 := by
      rcases abs_cases (pb.1 - pa.1) with ⟨ha, hb⟩ | ⟨ha, hb⟩ <;> rw [ha] <;> split <;> omega
    have hy0 : pb.2 - (if pa.2 < pb.2 then (1:ℤ) else -1) * |pb.2 - pa.2| = pa.2 := by
      rcases abs_cases (pb.2 - pa.2) with ⟨ha, hb⟩ | ⟨ha, hb⟩ <;> rw [ha] <;> split <;> omega
    have e3 : |pb.1 - pa.1| * (1 + |pb.2 - pa.2| - |pb.2 - pa.2|)
        - |pb.2 - pa.2| * (1 + |pb.1 - pa.1| - |pb.1 - pa.1|)
        = |pb.1 - pa.1| - |pb.2 - pa.2| := by ring
    rw [hx0, hy0, e3] at hl
    rw [hx0, hy0] at hh
    exact ⟨l, hl, hh, hlast⟩
  · decide

/-- Helper for C10: Python's round of an integer value is that integer. -/
theorem pyRound_intCast (n : ℤ) : Lab1.pyRound (n : ℚ) = n := by
  simp [Lab1.pyRound, Int.floor_intCast]

/-- Helper for C10: for one channel value `v` with `0 ≤ v ≤ M ≤ 1` and
`0 < M`, decoding the cmyk encoding of the channel recovers `255 * v`
(the clamps are no-ops and the `(1-k)` factors cancel). -/
theorem channel_recover (v M : ℚ) (hv0 : 0 ≤ v) (hvM : v ≤ M) (hM0 : 0 < M) (hM1 : M ≤ 1) :
    255 * (1 - Lab1.clamp (((1 - v - (1 - M)) / (1 - (1 - M))) * 100) 0 100 / 100)
      * (1 - Lab1.clamp ((1 - M) * 100) 0 100 / 100) = 255 * v := by
  have e1 : 1 - v - (1 - M) = M - v := by ring
  have e2 : 1 - (1 - M) = M := by ring
  rw [e1, e2]
  have hclamp : ∀ x : ℚ, 0 ≤ x → x ≤ 100 → Lab1.clamp x 0 100 = x := by
    intro x h0 h1
    rw [Lab1.clamp, min_eq_right h1, max_eq_right h0]
  have hc0 : 0 ≤ (M - v) / M * 100 := by
    have : 0 ≤ (M - v) / M := div_nonneg (by linarith) hM0.le
    linarith
  have hc1 : (M - v) / M * 100 ≤ 100 := by
    rw [div_mul_eq_mul_div, div_le_iff₀ hM0]
    nlinarith
  have hk0 : 0 ≤ (1 - M) * 100 := by nlinarith
  have hk1 : (1 - M) * 100 ≤ 100 := by nlinarith
  rw [hclamp _ hc0 hc1, hclamp _ hk0 hk1]
  field_simp
  ring

/-- C10: over exact rational arithmetic, converting an integer RGB triple with
components in `[0, 255]` to CMYK and back yields exactly the original triple. -/
theorem C10_rgb_cmyk_roundtrip (r g b : ℤ) (hr0 : 0 ≤ r) (hr1 : r ≤ 255)
    (hg0 : 0 ≤ g) (hg1 : g ≤ 255) (hb0 : 0 ≤ b) (hb1 : b ≤ 255) :
    Lab1.cmyk_to_rgb (Lab1.rgb_to_cmyk (r : ℚ) (g : ℚ) (b : ℚ)).1
      (Lab1.rgb_to_cmyk (r : ℚ) (g : ℚ) (b : ℚ)).2.1
      (Lab1.rgb_to_cmyk (r : ℚ) (g : ℚ) (b : ℚ)).2.2.1
      (Lab1.rgb_to_cmyk (r : ℚ) (g : ℚ) (b : ℚ)).2.2.2 = (r, g, b) := by
  have hrq : (0:ℚ) ≤ (r:ℚ) := by exact_mod_cast hr0
  have hgq : (0:ℚ) ≤ (g:ℚ) := by exact_mod_cast hg0
  have hbq : (0:ℚ) ≤ (b:ℚ) := by exact_mod_cast hb0
  have hrq1 : (r:ℚ) ≤ 255 := by exact_mod_cast hr1
  have hgq1 : (g:ℚ) ≤ 255 := by exact_mod_cast hg1
  have hbq1 : (b:ℚ) ≤ 255 := by exact_mod_cast hb1
  set M : ℚ := max (max ((r:ℚ)/255) ((g:ℚ)/255)) ((b:ℚ)/255) with hMdef
  have hv0r : 0 ≤ (r:ℚ)/255 := div_nonneg hrq (by norm_num)
  have hv0g : 0 ≤ (g:ℚ)/255 := div_nonneg hgq (by norm_num)
  have hv0b : 0 ≤ (b:ℚ)/255 := div_nonneg hbq (by norm_num)
  have hvMr : (r:ℚ)/255 ≤ M := (le_max_left _ _).trans (le_max_left _ _)
  have hvMg : (g:ℚ)/255 ≤ M := (le_max_right _ _).trans (le_max_left _ _)
  have hvMb : (b:ℚ)/255 ≤ M := le_max_right _ _
  by_cases hM : M = 0
  · have hr : r = 0 := by
      have h1 : (r:ℚ)/255 ≤ 0 := hM ▸ hvMr
      have h2 : (r:ℚ) = 0 := le_antisymm (by linarith) hrq
      exact_mod_cast h2
    have hg : g = 0 := by
      have h1 : (g:ℚ)/255 ≤ 0 := hM ▸ hvMg
      have h2 : (g:ℚ) = 0 := le_antisymm (by linarith) hgq
      exact_mod_cast h2
    have hb : b = 0 := by
      have h1 : (b:ℚ)/255 ≤ 0 := hM ▸ hvMb
      have h2 : (b:ℚ) = 0 := le_antisymm (by linarith) hbq
      exact_mod_cast h2
    subst hr; subst hg; subst hb
    norm_num [Lab1.rgb_to_cmyk, Lab1.cmyk_to_rgb, Lab1.clamp, Lab1.pyRound]
  · have hM0 : 0 < M := lt_of_le_of_ne (hv0b.trans hvMb) (Ne.symm hM)
    have hM1 : M ≤ 1 := by
      apply max_le (max_le ?_ ?_) ?_ <;> rw [div_le_one (by norm_num : (0:ℚ) < 255)] <;>
        assumption
    have hkne : ¬(1 - M = 1) := by
      intro h
      exact hM (by linarith)
    simp only [Lab1.rgb_to_cmyk]
    rw [if_neg hkne]
    simp only [Lab1.cmyk_to_rgb, Prod.mk.injEq]
    refine ⟨?_, ?_, ?_⟩
    · rw [channel_recover ((r:ℚ)/255) M hv0r hvMr hM0 hM1,
        mul_comm (255:ℚ) ((r:ℚ)/255), div_mul_cancel₀ _ (by norm_num : (255:ℚ) ≠ 0),
        pyRound_intCast]
    · rw [channel_recover ((g:ℚ)/255) M hv0g hvMg hM0 hM1,
        mul_comm (255:ℚ) ((g:ℚ)/255), div_mul_cancel₀ _ (by norm_num : (255:ℚ) ≠ 0),
        pyRound_intCast]
    · rw [channel_recover ((b:ℚ)/255) M hv0b hvMb hM0 hM1,
        mul_comm (255:ℚ) ((b:ℚ)/255), div_mul_cancel₀ _ (by norm_num : (255:ℚ) ≠ 0),
        pyRound_intCast]

/-- Witness for C10: the round-trip at the app's default color `(127, 86, 217)`. -/
theorem C10_rgb_cmyk_roundtrip_witness :
    Lab1.cmyk_to_rgb (Lab1.rgb_to_cmyk ((127 : ℤ) : ℚ) ((86 : ℤ) : ℚ) ((217 : ℤ) : ℚ)).1
      (Lab1.rgb_to_cmyk ((127 : ℤ) : ℚ) ((86 : ℤ) : ℚ) ((217 : ℤ) : ℚ)).2.1
      (Lab1.rgb_to_cmyk ((127 : ℤ) : ℚ) ((86 : ℤ) : ℚ) ((217 : ℤ) : ℚ)).2.2.1
      (Lab1.rgb_to_cmyk ((127 : ℤ) : ℚ) ((86 : ℤ) : ℚ) ((217 : ℤ) : ℚ)).2.2.2
      = (127, 86, 217) :=
  C10_rgb_cmyk_roundtrip 127 86 217 (by decide) (by decide) (by decide) (by decide)
    (by decide) (by decide)


/-- Helper: the centered mesh vertices, evaluated. -/
theorem letterVertsQ_eval : Lab5.letterVertsQ =
    [(-14/5, -4, -3/5), (-14/5, 4, -3/5), (12/5, 4, -3/5), (14/5, 16/5, -3/5),
     (14/5, 6/5, -3/5), (-2/5, 6/5, -3/5), (14/5, -1, -3/5), (3/5, -4, -3/5),
     (-8/5, 29/10, -3/5), (-8/5, 8/5, -3/5), (4/5, 8/5, -3/5), (4/5, 29/10, -3/5),
     (-14/5, -4, 3/5), (-14/5, 4, 3/5), (12/5, 4, 3/5), (14/5, 16/5, 3/5),
     (14/5, 6/5, 3/5), (-2/5, 6/5, 3/5), (14/5, -1, 3/5), (3/5, -4, 3/5),
     (-8/5, 29/10, 3/5), (-8/5, 8/5, 3/5), (4/5, 8/5, 3/5), (4/5, 29/10, 3/5)] := by
  norm_num [Lab5.letterVertsQ, Lab5.center_model, Lab5.build_letter_r, Lab5.contour,
    Lab5.inner, Lab5.listMin, Lab5.listMax, min_def, max_def, Prod.ext_iff]

/-- Helper: the centered mesh vertices over ℝ, evaluated. -/
theorem letterVerts_eval : Lab5.letterVerts =
    [(-14/5, -4, -3/5), (-14/5, 4, -3/5), (12/5, 4, -3/5), (14/5, 16/5, -3/5),
     (14/5, 6/5, -3/5), (-2/5, 6/5, -3/5), (14/5, -1, -3/5), (3/5, -4, -3/5),
     (-8/5, 29/10, -3/5), (-8/5, 8/5, -3/5), (4/5, 8/5, -3/5), (4/5, 29/10, -3/5),
     (-14/5, -4, 3/5), (-14/5, 4, 3/5), (12/5, 4, 3/5), (14/5, 16/5, 3/5),
     (14/5, 6/5, 3/5), (-2/5, 6/5, 3/5), (14/5, -1, 3/5), (3/5, -4, 3/5),
     (-8/5, 29/10, 3/5), (-8/5, 8/5, 3/5), (4/5, 8/5, 3/5), (4/5, 29/10, 3/5)] := by
  rw [Lab5.letterVerts, letterVertsQ_eval]
  norm_num [Prod.ext_iff]

/-- Helper: the vertex pipeline for the identity transform at camera angle 0
is the identity. -/
theorem pipeline_zero (v : Lab5.Vec3) :
    Lab5.project (Lab5.add (Lab5.rotate (Lab5.scale v 1) 0 0 0) (0 * 1, 0 * 1, 0 * 1)) 0 = v := by
  simp [Lab5.project, Lab5.add, Lab5.rotate, Lab5.scale]

/-- Helper: the vertex pipeline for the identity transform at camera angle π/2
maps `(x, y, z)` to `(z, y, -x)`. -/
theorem pipeline_pi2 (v : Lab5.Vec3) :
    Lab5.project (Lab5.add (Lab5.rotate (Lab5.scale v 1) 0 0 0) (0 * 1, 0 * 1, 0 * 1))
      (Real.pi / 2) = (v.2.2, v.2.1, -v.1) := by
  simp [Lab5.project, Lab5.add, Lab5.rotate, Lab5.scale]

/-- Helper: the app's projected vertices at the identity transform and camera
angle 0 are the base vertices. -/
theorem transform_zero :
    Lab5.transform_vertices Lab5.letterVerts (Lab5.Transform.mk 0 0 0 0 0 0 1) 0
      = Lab5.letterVerts := by
  show Lab5.letterVerts.map (fun v =>
    Lab5.project (Lab5.add (Lab5.rotate (Lab5.scale v 1) 0 0 0) (0 * 1, 0 * 1, 0 * 1)) 0)
    = Lab5.letterVerts
  rw [show (fun v : Lab5.Vec3 =>
      Lab5.project (Lab5.add (Lab5.rotate (Lab5.scale v 1) 0 0 0) (0 * 1, 0 * 1, 0 * 1)) 0)
      = id from funext fun v => pipeline_zero v, List.map_id]

/-- Helper: the app's projected vertices at the identity transform and camera
angle π/2. -/
theorem transform_pi2 :
    Lab5.transform_vertices Lab5.letterVerts (Lab5.Transform.mk 0 0 0 0 0 0 1) (Real.pi / 2)
      = Lab5.letterVerts.map (fun v => (v.2.2, v.2.1, -v.1)) := by
  show Lab5.letterVerts.map _ = _
  exact List.map_congr_left fun v _ => pipeline_pi2 v

/-- Helper: evaluating `normal` when the cross product and its length are
known in closed form. -/
theorem normal_eval (a b c : Lab5.Vec3) (nx ny nz s : ℝ)
    (h : Lab5.edgeCross a b c = (nx, ny, nz))
    (hs : nx * nx + ny * ny + nz * nz = s ^ 2) (hs0 : 0 < s) :
    Lab5.normal a b c = (nx / s, ny / s, nz / s) := by
  have hb : Lab5.normal a b c =
      ((Lab5.edgeCross a b c).1 / Lab5.pyOr (Real.sqrt
          ((Lab5.edgeCross a b c).1 * (Lab5.edgeCross a b c).1 +
           (Lab5.edgeCross a b c).2.1 * (Lab5.edgeCross a b c).2.1 +
           (Lab5.edgeCross a b c).2.2 * (Lab5.edgeCross a b c).2.2)) 1,
       (Lab5.edgeCross a b c).2.1 / Lab5.pyOr (Real.sqrt
          ((Lab5.edgeCross a b c).1 * (Lab5.edgeCross a b c).1 +
           (Lab5.edgeCross a b c).2.1 * (Lab5.edgeCross a b c).2.1 +
           (Lab5.edgeCross a b c).2.2 * (Lab5.edgeCross a b c).2.2)) 1,
       (Lab5.edgeCross a b c).2.2 / Lab5.pyOr (Real.sqrt
          ((Lab5.edgeCross a b c).1 * (Lab5.edgeCross a b c).1 +
           (Lab5.edgeCross a b c).2.1 * (Lab5.edgeCross a b c).2.1 +
           (Lab5.edgeCross a b c).2.2 * (Lab5.edgeCross a b c).2.2)) 1) := rfl
  rw [hb, h]
  simp only
  rw [hs, Real.sqrt_sq hs0.le, Lab5.pyOr, if_neg (ne_of_gt hs0)]

/-- Helper: evaluating `shade` at the base color for a concrete normal whose
clamped intensity and floored channels are known. -/
theorem shade_eval (n1 n2 n3 d : ℝ) (r3 g3 b3 : ℤ)
    (hd : max (1/5) (min 1 (n1 * (1/2) + n2 * (7/10) + n3 * 1)) = d) (hd0 : 0 ≤ d)
    (hr : ⌊((228 : ℤ) : ℝ) * d⌋ = r3) (hr255 : r3 ≤ 255)
    (hg : ⌊((87 : ℤ) : ℝ) * d⌋ = g3) (hg255 : g3 ≤ 255)
    (hb : ⌊((46 : ℤ) : ℝ) * d⌋ = b3) (hb255 : b3 ≤ 255) :
    Lab5.shade Lab5.base_color (n1, n2, n3) = (r3, g3, b3) := by
  simp only [Lab5.shade, Lab5.base_color, Lab5.pyInt]
  rw [hd]
  rw [if_pos (by positivity : (0:ℝ) ≤ ((228 : ℤ) : ℝ) * d)]
  rw [if_pos (by positivity : (0:ℝ) ≤ ((87 : ℤ) : ℝ) * d)]
  rw [if_pos (by positivity : (0:ℝ) ≤ ((46 : ℤ) : ℝ) * d)]
  rw [hr, hg, hb, min_eq_right hr255, min_eq_right hg255, min_eq_right hb255]

/-- Helper: the fill color of mesh face `[21, 20, 8, 9]` at camera angle 0. -/
theorem fill_zero :
    Lab5.renderFill (Lab5.Transform.mk 0 0 0 0 0 0 1) 0 [21, 20, 8, 9] = (45, 17, 9) := by
  rw [Lab5.renderFill, transform_zero]
  have g21 : Lab5.letterVerts.getD 21 (0, 0, 0) = (-8/5, 8/5, 3/5) := by
    rw [letterVerts_eval]; rfl
  have g20 : Lab5.letterVerts.getD 20 (0, 0, 0) = (-8/5, 29/10, 3/5) := by
    rw [letterVerts_eval]; rfl
  have g8 : Lab5.letterVerts.getD 8 (0, 0, 0) = (-8/5, 29/10, -3/5) := by
    rw [letterVerts_eval]; rfl
  simp only [Lab5.faceFill]
  rw [if_pos (by norm_num : 3 ≤ ([21, 20, 8, 9] : List ℕ).length)]
  rw [show ([21, 20, 8, 9] : List ℕ).getD 0 0 = 21 from rfl,
    show ([21, 20, 8, 9] : List ℕ).getD 1 0 = 20 from rfl,
    show ([21, 20, 8, 9] : List ℕ).getD 2 0 = 8 from rfl, g21, g20, g8]
  rw [normal_eval _ _ _ (-39/25) 0 0 (39/25)
    (by norm_num [Lab5.edgeCross, Prod.ext_iff]) (by norm_num) (by norm_num)]
  exact shade_eval _ _ _ (1/5) 45 17 9 (by norm_num [min_def, max_def]) (by norm_num)
    (by rw [Int.floor_eq_iff]; norm_num) (by norm_num)
    (by rw [Int.floor_eq_iff]; norm_num) (by norm_num)
    (by rw [Int.floor_eq_iff]; norm_num) (by norm_num)

/-- Helper: the fill color of mesh face `[21, 20, 8, 9]` at camera angle π/2. -/
theorem fill_pi2 :
    Lab5.renderFill (Lab5.Transform.mk 0 0 0 0 0 0 1) (Real.pi / 2) [21, 20, 8, 9]
      = (228, 87, 46) := by
  rw [Lab5.renderFill, transform_pi2]
  have hmap : Lab5.letterVerts.map (fun v => (v.2.2, v.2.1, -v.1)) =
      [(-3/5, -4, 14/5), (-3/5, 4, 14/5), (-3/5, 4, -12/5), (-3/5, 16/5, -14/5),
       (-3/5, 6/5, -14/5), (-3/5, 6/5, 2/5), (-3/5, -1, -14/5), (-3/5, -4, -3/5),
       (-3/5, 29/10, 8/5), (-3/5, 8/5, 8/5), (-3/5, 8/5, -4/5), (-3/5, 29/10, -4/5),
       (3/5, -4, 14/5), (3/5, 4, 14/5), (3/5, 4, -12/5), (3/5, 16/5, -14/5),
       (3/5, 6/5, -14/5), (3/5, 6/5, 2/5), (3/5, -1, -14/5), (3/5, -4, -3/5),
       (3/5, 29/10, 8/5), (3/5, 8/5, 8/5), (3/5, 8/5, -4/5), (3/5, 29/10, -4/5)] := by
    rw [letterVerts_eval]
    norm_num [Prod.ext_iff]
  rw [hmap]
  simp only [Lab5.faceFill]
  rw [if_pos (by norm_num : 3 ≤ ([21, 20, 8, 9] : List ℕ).length)]
  rw [show ([21, 20, 8, 9] : List ℕ).getD 0 0 = 21 from rfl,
    show ([21, 20, 8, 9] : List ℕ).getD 1 0 = 20 from rfl,
    show ([21, 20, 8, 9] : List ℕ).getD 2 0 = 8 from rfl]
  rw [show ([(-3/5, -4, 14/5), (-3/5, 4, 14/5), (-3/5, 4, -12/5), (-3/5, 16/5, -14/5),
       (-3/5, 6/5, -14/5), (-3/5, 6/5, 2/5), (-3/5, -1, -14/5), (-3/5, -4, -3/5),
       (-3/5, 29/10, 8/5), (-3/5, 8/5, 8/5), (-3/5, 8/5, -4/5), (-3/5, 29/10, -4/5),
       (3/5, -4, 14/5), (3/5, 4, 14/5), (3/5, 4, -12/5), (3/5, 16/5, -14/5),
       (3/5, 6/5, -14/5), (3/5, 6/5, 2/5), (3/5, -1, -14/5), (3/5, -4, -3/5),
       (3/5, 29/10, 8/5), (3/5, 8/5, 8/5), (3/5, 8/5, -4/5), (3/5, 29/10, -4/5)] :
      List Lab5.Vec3).getD 21 (0, 0, 0) = (3/5, 8/5, 8/5) from rfl]
  rw [show ([(-3/5, -4, 14/5), (-3/5, 4, 14/5), (-3/5, 4, -12/5), (-3/5, 16/5, -14/5),
       (-3/5, 6/5, -14/5), (-3/5, 6/5, 2/5), (-3/5, -1, -14/5), (-3/5, -4, -3/5),
       (-3/5, 29/10, 8/5), (-3/5, 8/5, 8/5), (-3/5, 8/5, -4/5), (-3/5, 29/10, -4/5),
       (3/5, -4, 14/5), (3/5, 4, 14/5), (3/5, 4, -12/5), (3/5, 16/5, -14/5),
       (3/5, 6/5, -14/5), (3/5, 6/5, 2/5), (3/5, -1, -14/5), (3/5, -4, -3/5),
       (3/5, 29/10, 8/5), (3/5, 8/5, 8/5), (3/5, 8/5, -4/5), (3/5, 29/10, -4/5)] :
      List Lab5.Vec3).getD 20 (0, 0, 0) = (3/5, 29/10, 8/5) from rfl]
  rw [show ([(-3/5, -4, 14/5), (-3/5, 4, 14/5), (-3/5, 4, -12/5), (-3/5, 16/5, -14/5),
       (-3/5, 6/5, -14/5), (-3/5, 6/5, 2/5), (-3/5, -1, -14/5), (-3/5, -4, -3/5),
       (-3/5, 29/10, 8/5), (-3/5, 8/5, 8/5), (-3/5, 8/5, -4/5), (-3/5, 29/10, -4/5),
       (3/5, -4, 14/5), (3/5, 4, 14/5), (3/5, 4, -12/5), (3/5, 16/5, -14/5),
       (3/5, 6/5, -14/5), (3/5, 6/5, 2/5), (3/5, -1, -14/5), (3/5, -4, -3/5),
       (3/5, 29/10, 8/5), (3/5, 8/5, 8/5), (3/5, 8/5, -4/5), (3/5, 29/10, -4/5)] :
      List Lab5.Vec3).getD 8 (0, 0, 0) = (-3/5, 29/10, 8/5) from rfl]
  rw [normal_eval _ _ _ 0 0 (39/25) (39/25)
    (by norm_num [Lab5.edgeCross, Prod.ext_iff]) (by norm_num) (by norm_num)]
  exact shade_eval _ _ _ 1 228 87 46 (by norm_num [min_def, max_def]) (by norm_num)
    (by rw [Int.floor_eq_iff]; norm_num) (by norm_num)
    (by rw [Int.floor_eq_iff]; norm_num) (by norm_num)
    (by rw [Int.floor_eq_iff]; norm_num) (by norm_num)

/-- Counterexample to C2: for the fixed identity transform (unit scale, no
rotation, no translation), the app's mesh face number 8 (the first inner side
quad, vertex indices `[21, 20, 8, 9]`) is filled with color `(45, 17, 9)` at
camera angle `0` but `(228, 87, 46)` at camera angle `π/2`: the fill color
does depend on the camera angle, because `render` computes the shading normal
from the projected vertices. -/
theorem C2_counterexample :
    Lab5.letterFaces.getD 8 [] = [21, 20, 8, 9] ∧
    Lab5.renderFill (Lab5.Transform.mk 0 0 0 0 0 0 1) 0 [21, 20, 8, 9] ≠
      Lab5.renderFill (Lab5.Transform.mk 0 0 0 0 0 0 1) (Real.pi / 2) [21, 20, 8, 9] := by
  refine ⟨rfl, ?_⟩
  rw [fill_zero, fill_pi2]
  decide

/-- C2 (amended): in the rendering pipeline each face's shading normal is
computed from the face's first three vertices as positions in the *projected*
(camera-space) vertex list, not in camera-independent model space; in
particular there exist camera angles under which the same face of the app's
mesh, under the same Transform, receives different fill colors. -/
theorem C2_amended :
    (∀ (verts : List Lab5.Vec3) (face : List ℕ), 3 ≤ face.length →
      Lab5.faceFill verts face = Lab5.shade Lab5.base_color
        (Lab5.normal (verts.getD (face.getD 0 0) (0, 0, 0))
          (verts.getD (face.getD 1 0) (0, 0, 0))
          (verts.getD (face.getD 2 0) (0, 0, 0)))) ∧
    (∃ a1 a2 : ℝ,
      Lab5.renderFill (Lab5.Transform.mk 0 0 0 0 0 0 1) a1 (Lab5.letterFaces.getD 8 []) ≠
      Lab5.renderFill (Lab5.Transform.mk 0 0 0 0 0 0 1) a2 (Lab5.letterFaces.getD 8 [])) := by
  constructor
  · intro verts face h
    simp only [Lab5.faceFill]
    rw [if_pos h]
  · refine ⟨0, Real.pi / 2, ?_⟩
    rw [show Lab5.letterFaces.getD 8 [] = [21, 20, 8, 9] from rfl, fill_zero, fill_pi2]
    decide

/-- Witness for C2's amended theorem, applied to the app's vertices and the
mesh face `[21, 20, 8, 9]`. -/
theorem C2_amended_witness :
    Lab5.faceFill Lab5.letterVerts [21, 20, 8, 9] = Lab5.shade Lab5.base_color
      (Lab5.normal (Lab5.letterVerts.getD (([21, 20, 8, 9] : List ℕ).getD 0 0) (0, 0, 0))
        (Lab5.letterVerts.getD (([21, 20, 8, 9] : List ℕ).getD 1 0) (0, 0, 0))
        (Lab5.letterVerts.getD (([21, 20, 8, 9] : List ℕ).getD 2 0) (0, 0, 0))) :=
  C2_amended.1 Lab5.letterVerts [21, 20, 8, 9] (by norm_num)

/-- Counterexample to C3: at the degenerate (collinear) input `a = b = c =
(0,0,0)` the cross product has zero length, and `normal` returns `(0, 0, 0)` —
the zero vector divided by the fallback length `1.0` — not the claimed
fallback direction `(0, 0, 1)`. -/
theorem C3_normal_counterexample :
    Lab5.normal (0, 0, 0) (0, 0, 0) (0, 0, 0) = ((0 : ℝ), 0, 0) ∧
    Lab5.normal (0, 0, 0) (0, 0, 0) (0, 0, 0) ≠ ((0 : ℝ), 0, 1) := by
  have h : Lab5.normal (0, 0, 0) (0, 0, 0) (0, 0, 0) = ((0 : ℝ), 0, 0) := by
    simp [Lab5.normal, Lab5.pyOr]
  refine ⟨h, ?_⟩
  rw [h]
  simp [Prod.ext_iff]

/-- C3 (amended): when the cross product of `(b-a)` and `(c-a)` has zero
length, `normal a b c` returns `(0, 0, 0)` (the zero cross product divided by
the fallback length `1.0`), silently and without error; otherwise it returns
that cross product normalized to unit magnitude. -/
theorem C3_normal_amended (a b c : Lab5.Vec3) :
    (Real.sqrt ((Lab5.edgeCross a b c).1 ^ 2 + (Lab5.edgeCross a b c).2.1 ^ 2 +
        (Lab5.edgeCross a b c).2.2 ^ 2) = 0 →
      Lab5.normal a b c = (0, 0, 0)) ∧
    (Real.sqrt ((Lab5.edgeCross a b c).1 ^ 2 + (Lab5.edgeCross a b c).2.1 ^ 2 +
        (Lab5.edgeCross a b c).2.2 ^ 2) ≠ 0 →
      Real.sqrt ((Lab5.normal a b c).1 ^ 2 + (Lab5.normal a b c).2.1 ^ 2 +
        (Lab5.normal a b c).2.2 ^ 2) = 1) := by
  set nx := (b.2.1 - a.2.1) * (c.2.2 - a.2.2) - (b.2.2 - a.2.2) * (c.2.1 - a.2.1) with hnx
  set ny := (b.2.2 - a.2.2) * (c.1 - a.1) - (b.1 - a.1) * (c.2.2 - a.2.2) with hny
  set nz := (b.1 - a.1) * (c.2.1 - a.2.1) - (b.2.1 - a.2.1) * (c.1 - a.1) with hnz
  have hcross : Lab5.edgeCross a b c = (nx, ny, nz) := rfl
  have hS : (0:ℝ) ≤ nx ^ 2 + ny ^ 2 + nz ^ 2 := by positivity
  have hSS : nx * nx + ny * ny + nz * nz = nx ^ 2 + ny ^ 2 + nz ^ 2 := by ring
  have hnormal : Lab5.normal a b c =
      (nx / Lab5.pyOr (Real.sqrt (nx ^ 2 + ny ^ 2 + nz ^ 2)) 1,
       ny / Lab5.pyOr (Real.sqrt (nx ^ 2 + ny ^ 2 + nz ^ 2)) 1,
       nz / Lab5.pyOr (Real.sqrt (nx ^ 2 + ny ^ 2 + nz ^ 2)) 1) := by
    rw [Lab5.normal, ← hnx, ← hny, ← hnz, hSS]
  constructor
  · intro h0
    rw [hcross] at h0
    have hS0 : nx ^ 2 + ny ^ 2 + nz ^ 2 = 0 := by
      have := Real.sqrt_eq_zero hS |>.mp h0
      exact this
    have hx : nx = 0 := by nlinarith [sq_nonneg nx, sq_nonneg ny, sq_nonneg nz]
    have hy : ny = 0 := by nlinarith [sq_nonneg nx, sq_nonneg ny, sq_nonneg nz]
    have hz : nz = 0 := by nlinarith [sq_nonneg nx, sq_nonneg ny, sq_nonneg nz]
    rw [hnormal, hx, hy, hz]
    simp
  · intro h0
    rw [hcross] at h0
    have hL0 : 0 < Real.sqrt (nx ^ 2 + ny ^ 2 + nz ^ 2) :=
      lt_of_le_of_ne (Real.sqrt_nonneg _) (Ne.symm h0)
    have hpy : Lab5.pyOr (Real.sqrt (nx ^ 2 + ny ^ 2 + nz ^ 2)) 1 =
        Real.sqrt (nx ^ 2 + ny ^ 2 + nz ^ 2) := by
      rw [Lab5.pyOr, if_neg h0]
    have hsq : Real.sqrt (nx ^ 2 + ny ^ 2 + nz ^ 2) ^ 2 = nx ^ 2 + ny ^ 2 + nz ^ 2 :=
      Real.sq_sqrt hS
    rw [hnormal, hpy]
    have harg : (nx / Real.sqrt (nx ^ 2 + ny ^ 2 + nz ^ 2)) ^ 2 +
        (ny / Real.sqrt (nx ^ 2 + ny ^ 2 + nz ^ 2)) ^ 2 +
        (nz / Real.sqrt (nx ^ 2 + ny ^ 2 + nz ^ 2)) ^ 2 = 1 := by
      have h0q : Real.sqrt (nx ^ 2 + ny ^ 2 + nz ^ 2) ≠ 0 := h0
      have hSne : nx ^ 2 + ny ^ 2 + nz ^ 2 ≠ 0 := by
        intro h
        rw [h, Real.sqrt_zero] at h0q
        exact h0q rfl
      field_simp
    rw [harg, Real.sqrt_one]

/-- Witness for C3's amended theorem: the degenerate branch at the all-zero
input and the unit-magnitude branch at the standard basis triangle. -/
theorem C3_normal_amended_witness :
    Lab5.normal (0, 0, 0) (0, 0, 0) (0, 0, 0) = ((0 : ℝ), 0, 0) ∧
    Real.sqrt ((Lab5.normal (0, 0, 0) (1, 0, 0) (0, 1, 0)).1 ^ 2 +
      (Lab5.normal (0, 0, 0) (1, 0, 0) (0, 1, 0)).2.1 ^ 2 +
      (Lab5.normal (0, 0, 0) (1, 0, 0) (0, 1, 0)).2.2 ^ 2) = 1 :=
  ⟨(C3_normal_amended (0, 0, 0) (0, 0, 0) (0, 0, 0)).1 (by norm_num [Lab5.edgeCross]),
   (C3_normal_amended (0, 0, 0) (1, 0, 0) (0, 1, 0)).2 (by norm_num [Lab5.edgeCross])⟩

/-- C6: the visibility resolver (a stable descending sort of the
`(mean depth, face)` pairs, the meaning of Python's
`sort(key=lambda x: x[0], reverse=True)`) emits the faces in weakly
descending mean-depth order, as a permutation of the keyed input; for every
depth value the subsequence of pairs with that exact mean depth equals the
corresponding subsequence of the input (stable tie-breaking in original mesh
order); and a face with strictly greater mean depth than another is emitted
strictly before it. -/
theorem C6_visibility_order (verts : List Lab5.Vec3) (faces : List (List ℕ)) :
    (Lab5.sortFacesBack verts faces).Pairwise (fun p q => q.1 ≤ p.1) ∧
    (Lab5.sortFacesBack verts faces).Perm (Lab5.depthKeyed verts faces) ∧
    (∀ d : ℝ, (Lab5.sortFacesBack verts faces).filter (fun p => decide (p.1 = d)) =
      (Lab5.depthKeyed verts faces).filter (fun p => decide (p.1 = d))) ∧
    (∀ (i j : ℕ) (hi : i < (Lab5.sortFacesBack verts faces).length)
        (hj : j < (Lab5.sortFacesBack verts faces).length),
      ((Lab5.sortFacesBack verts faces).get ⟨i, hi⟩).1 >
        ((Lab5.sortFacesBack verts faces).get ⟨j, hj⟩).1 → i < j) := by
  have htrans : ∀ a b c : ℝ × List ℕ,
      (fun a b : ℝ × List ℕ => decide (b.1 ≤ a.1)) a b →
      (fun a b : ℝ × List ℕ => decide (b.1 ≤ a.1)) b c →
      (fun a b : ℝ × List ℕ => decide (b.1 ≤ a.1)) a c := by
    intro a b c h1 h2
    simp only [decide_eq_true_eq] at h1 h2 ⊢
    exact le_trans h2 h1
  have htotal : ∀ a b : ℝ × List ℕ,
      ((fun a b : ℝ × List ℕ => decide (b.1 ≤ a.1)) a b ||
       (fun a b : ℝ × List ℕ => decide (b.1 ≤ a.1)) b a) := by
    intro a b
    simp only [Bool.or_eq_true, decide_eq_true_eq]
    exact le_total b.1 a.1
  have hpair : (Lab5.sortFacesBack verts faces).Pairwise
      (fun a b : ℝ × List ℕ => decide (b.1 ≤ a.1) = true) :=
    List.sorted_mergeSort htrans htotal (Lab5.depthKeyed verts faces)
  have hperm : (Lab5.sortFacesBack verts faces).Perm (Lab5.depthKeyed verts faces) :=
    List.mergeSort_perm (Lab5.depthKeyed verts faces) _
  have hpair2 : (Lab5.sortFacesBack verts faces).Pairwise (fun p q => q.1 ≤ p.1) :=
    hpair.imp (by simp only [decide_eq_true_eq]; exact fun h => h)
  refine ⟨hpair2, hperm, ?_, ?_⟩
  · intro d
    have h1 : List.Sublist ((Lab5.depthKeyed verts faces).filter (fun p => decide (p.1 = d)))
        (Lab5.depthKeyed verts faces) := List.filter_sublist _
    have h2 : ((Lab5.depthKeyed verts faces).filter (fun p => decide (p.1 = d))).Pairwise
        (fun a b : ℝ × List ℕ => decide (b.1 ≤ a.1) = true) := by
      apply List.pairwise_of_forall_mem_list
      intro a ha b hb
      have ha1 : a.1 = d := by simpa using (List.mem_filter.mp ha).2
      have hb1 : b.1 = d := by simpa using (List.mem_filter.mp hb).2
      simp [ha1, hb1]
    have h3 : List.Sublist ((Lab5.depthKeyed verts faces).filter (fun p => decide (p.1 = d)))
        (Lab5.sortFacesBack verts faces) := List.sublist_mergeSort htrans htotal h2 h1
    have h4 := h3.filter (fun p => decide (p.1 = d))
    rw [List.filter_filter] at h4
    have h4' : List.Sublist ((Lab5.depthKeyed verts faces).filter (fun p => decide (p.1 = d)))
        ((Lab5.sortFacesBack verts faces).filter (fun p => decide (p.1 = d))) := by
      simpa using h4
    have h6 : ((Lab5.sortFacesBack verts faces).filter (fun p => decide (p.1 = d))).Perm
        ((Lab5.depthKeyed verts faces).filter (fun p => decide (p.1 = d))) :=
      hperm.filter _
    exact (h4'.eq_of_length h6.length_eq.symm).symm
  · intro i j hi hj hgt
    rcases lt_trichotomy i j with h | h | h
    · exact h
    · exfalso
      subst h
      exact lt_irrefl _ hgt
    · exfalso
      have := List.pairwise_iff_get.mp hpair2 ⟨j, hj⟩ ⟨i, hi⟩ h
      exact absurd hgt (not_lt.mpr this)
